import Mathlib

/-!
Verification of the KES kernel of the Karuha repository.

Shallow embedding of `src/karuha/kes/core/record.py`, `node.py`,
`network.py`, `phantom.py`, `event.py` and `src/karuha/kes/builtin/phantom.py`.
Python machine state is made explicit; fallible operations return `Except`;
the asynchronous effects of a handler run (messages sent, exceptions raised)
are recorded as explicit effect traces.
-/

namespace Karuha

/-- Error kinds of `karuha.kes.core.exception` relevant to the claims, plus the
Python-level `IndexError` that `list.pop()` raises on an empty list. -/
inductive KesErr where
  | runtimeError (msg : String)
  | portError (name : String)
  | unsupportedMessage
  | valueError
  | indexError
  | typeError
  deriving DecidableEq, Repr

instance {ε α : Type} [DecidableEq ε] [DecidableEq α] : DecidableEq (Except ε α) :=
  fun x y =>
    match x, y with
    | .ok a, .ok b =>
      if h : a = b then .isTrue (congrArg Except.ok h)
      else .isFalse (fun hh => h (Except.ok.inj hh))
    | .error a, .error b =>
      if h : a = b then .isTrue (congrArg Except.error h)
      else .isFalse (fun hh => h (Except.error.inj hh))
    | .ok _, .error _ => .isFalse (fun hh => Except.noConfusion hh)
    | .error _, .ok _ => .isFalse (fun hh => Except.noConfusion hh)

/-! ## Record arena: `karuha.kes.core.record.RecordManager` -/

/-- `NodeRecord = NamedTuple(node, next)` from `record.py`.  The `next` field
(set of forward-edge ids) is called `nxt` here. -/
structure NodeRecord (Node : Type) where
  node : Node
  nxt : Finset Int
  deriving DecidableEq

/-- State of `RecordManager`: the backing list `_records` and the set of freed
ids `_id_cache`.  Freed ids are only ever previously valid indices, so the
cache is a set of naturals. -/
structure RecordManager (Node : Type) where
  _records : List (NodeRecord Node)
  _id_cache : Finset Nat
  deriving DecidableEq

/-- The initial state built by `RecordManager.__init__`. -/
def RecordManager.init (Node : Type) : RecordManager Node := ⟨[], ∅⟩

/-- `RecordManager.get`: fails with `RuntimeError` when
`nid < 0 or nid >= len(self._records) or nid in self._id_cache`,
otherwise returns the record at index `nid`. -/
def RecordManager.get {Node : Type} (m : RecordManager Node) (nid : Int) :
    Except KesErr (NodeRecord Node) :=
  if h : 0 ≤ nid ∧ nid.toNat < m._records.length ∧ nid.toNat ∉ m._id_cache then
    .ok (m._records.get ⟨nid.toNat, h.2.1⟩)
  else
    .error (.runtimeError "there is no node with id")

/-- Python `set.pop()` removes and returns an *arbitrary* element of the set.
A pop policy is any way of choosing a member of a nonempty set; every such
policy is a legal behaviour of the source.  (For the concrete set `{1, 8}` of
small ints, CPython's open-addressing table actually yields `8`.) -/
structure SetPop where
  pick : Finset Nat → Nat
  pick_mem : ∀ s : Finset Nat, s.Nonempty → pick s ∈ s

/-- A pop policy returning the smallest member. -/
def popMin : SetPop where
  pick s := if h : s.Nonempty then s.min' h else 0
  pick_mem s h := by simpa [h] using s.min'_mem h

/-- A pop policy returning the largest member (this is what CPython's
`set.pop` does on `{1, 8}`). -/
def popMax : SetPop where
  pick s := if h : s.Nonempty then s.max' h else 0
  pick_mem s h := by simpa [h] using s.max'_mem h

/-- `RecordManager.new`: if `self._id_cache` is truthy (nonempty), pop an id
from it and overwrite that slot; otherwise append, returning the old length.
(`node.nid = nid` mutates the node object and is not part of the arena
state.) -/
def RecordManager.new {Node : Type} (pop : SetPop) (m : RecordManager Node)
    (node : Node) : Int × RecordManager Node :=
  if m._id_cache.Nonempty then
    let nid := pop.pick m._id_cache
    ((nid : Int), ⟨m._records.set nid ⟨node, ∅⟩, m._id_cache.erase nid⟩)
  else
    ((m._records.length : Int), ⟨m._records ++ [⟨node, ∅⟩], m._id_cache⟩)

/-- The `while` loop in `RecordManager.drop`:
`while (n := len(self._records) - 1) in self._id_cache: remove n; pop()`.
The cache holds naturals only, so the loop always stops at the empty list
(where `n = -1`). -/
def shrinkTail {Node : Type} :
    List (NodeRecord Node) → Finset Nat → List (NodeRecord Node) × Finset Nat
  | records, cache =>
    if h : 0 < records.length ∧ records.length - 1 ∈ cache then
      shrinkTail records.dropLast (cache.erase (records.length - 1))
    else
      (records, cache)
  termination_by records _ => records.length
  decreasing_by
    simp only [List.length_dropLast]
    exact Nat.sub_lt h.1 Nat.one_pos

/-- `RecordManager.drop`: if `nid == len(self._records) - 1` (as Python ints),
pop the last record and keep truncating freed tail slots; otherwise `get`
(which may fail) and mark the slot free.  `list.pop()` on an empty list is an
`IndexError`. -/
def RecordManager.drop {Node : Type} (m : RecordManager Node) (nid : Int) :
    Except KesErr (Node × RecordManager Node) :=
  if nid = (m._records.length : Int) - 1 then
    match m._records.getLast? with
    | none => .error .indexError
    | some record =>
      let p := shrinkTail m._records.dropLast m._id_cache
      .ok (record.node, ⟨p.1, p.2⟩)
  else
    match m.get nid with
    | .error e => .error e
    | .ok record => .ok (record.node, ⟨m._records, insert nid.toNat m._id_cache⟩)

/-- The currently-live ids: valid indices not marked free. -/
def liveIds {Node : Type} (m : RecordManager Node) : Finset Nat :=
  (Finset.range m._records.length).filter (fun i => i ∉ m._id_cache)

/-- Number of live records (Python `RecordManager.__len__`). -/
def liveCount {Node : Type} (m : RecordManager Node) : Nat :=
  m._records.length - m._id_cache.card

/-- Arena well-formedness: every freed id is a valid index that is not the
last slot (the last storage slot is never a freed hole). -/
def RMWF {Node : Type} (m : RecordManager Node) : Prop :=
  ∀ i ∈ m._id_cache, i + 1 < m._records.length

/-- States of the arena reachable from `__init__` by `new` / `drop`
(a failing `drop` leaves the state unchanged). -/
inductive RMReachable {Node : Type} : RecordManager Node → Prop
  | init : RMReachable (RecordManager.init Node)
  | step_new (pop : SetPop) (node : Node) {m : RecordManager Node} :
      RMReachable m → RMReachable (RecordManager.new pop m node).2
  | step_drop (nid : Int) (node : Node) {m m' : RecordManager Node} :
      RMReachable m → m.drop nid = .ok (node, m') → RMReachable m'

/-! ### Concrete arena states

`rm10` is the arena after allocating ten nodes (ids 0..9) in an empty arena;
`rmD2` is `rm10` after `drop(1)` then `drop(8)`, so its free cache holds the
ids `1` and `8`. -/

def rm10 : RecordManager Nat :=
  (List.range 10).foldl (fun m k => (RecordManager.new popMin m k).2)
    (RecordManager.init Nat)

/-- The post-state of a successful `drop`, the state itself otherwise. -/
def dropState (m : RecordManager Nat) (nid : Int) : RecordManager Nat :=
  match m.drop nid with
  | .ok p => p.2
  | .error _ => m

def rmD1 : RecordManager Nat := dropState rm10 1

def rmD2 : RecordManager Nat := dropState rmD1 8

/-! ## Handler dispatch: `karuha.kes.core.node.Node.handle_message`

Message classes are represented by numeric tags; a concrete message class is
represented by its Python `__mro__`, the list of its type tags from most
specific to least specific.  A node class's `__message_handler__` table maps
a tag to the flags of the registered handler (handler bodies are abstracted;
the dispatch skeleton of `handle_message` is what is embedded, and its
observable actions are recorded as an effect trace).  `hasTarget` tells
whether the inbound message was a `ReflectMessage` (whose `target` was
unwrapped); `mro` is then the hierarchy of the unwrapped `raw` message. -/

/-- `HandlerFlag` of `node.py` (an `IntFlag`; `DEFAULT` has no bit set). -/
structure HandlerFlag where
  reflective : Bool
  send_ret : Bool
  propagate : Bool
  deriving DecidableEq

def HandlerFlag.DEFAULT : HandlerFlag := ⟨false, false, false⟩

/-- Observable actions of a `handle_message` run. -/
inductive Effect where
  | invoked (tp : Nat)     -- `await hdl(self, message)` for the handler registered at `tp`
  | sentData (tp : Nat)    -- `DataMessage(ret)` sent to the reflect target
  | passedDown (tp : Nat)  -- `DataMessage(ret)` passed down the forward edges
  | sentErr (e : KesErr)   -- an exception sent as an event to the owning network
  deriving DecidableEq

/-- Result of a `handle_message` run: normal completion, or cancellation of
the current task by `NodeCancelledError` carrying exception `e`. -/
inductive HandleResult where
  | ok (effects : List Effect)
  | cancelled (effects : List Effect) (e : KesErr)
  deriving DecidableEq

/-- The `for tp in message.__class__.__mro__` loop of `handle_message`.
Returns the effect trace, the `handled` flag, and the exception of a
mid-loop `throw` (`SEND_RET` with a reflect target but no `REFLECTIVE`
flag), if any. -/
def dispatchLoop (table : Nat → Option HandlerFlag) (hasTarget : Bool) :
    List Nat → List Effect × Bool × Option KesErr
  | [] => ([], false, none)
  | tp :: rest =>
    match table tp with
    | none => dispatchLoop table hasTarget rest
    | some hdl =>
      let effs : List Effect :=
        if hdl.send_ret then
          if hasTarget then
            if hdl.reflective then [.invoked tp, .sentData tp]
            else [.invoked tp, .sentErr .unsupportedMessage]
          else [.invoked tp, .passedDown tp]
        else [.invoked tp]
      if hdl.send_ret && hasTarget && !hdl.reflective then
        (effs, true, some .unsupportedMessage)
      else if hdl.propagate then
        let r := dispatchLoop table hasTarget rest
        (effs ++ r.1, true, r.2.2)
      else
        (effs, true, none)

/-- `Node.handle_message`: a node owned by a (core) `PhantomNetwork` throws
`RuntimeError` before any dispatch; otherwise the loop runs and, if nothing
handled the message, `UnsupportedMessageError` is thrown (sent to the owning
network, then the task is cancelled). -/
def handleMessage (isPhantomNet : Bool) (table : Nat → Option HandlerFlag)
    (hasTarget : Bool) (mro : List Nat) : HandleResult :=
  if isPhantomNet then
    .cancelled [.sentErr (.runtimeError "phantom node does not receive messages")]
      (.runtimeError "phantom node does not receive messages")
  else
    let r := dispatchLoop table hasTarget mro
    match r.2.2 with
    | some e => .cancelled r.1 e
    | none =>
      if r.2.1 then .ok r.1
      else .cancelled (r.1 ++ [.sentErr .unsupportedMessage]) .unsupportedMessage

def effectsOf : HandleResult → List Effect
  | .ok effs => effs
  | .cancelled effs _ => effs

/-- The handlers actually invoked, in order. -/
def invokedTags (effs : List Effect) : List Nat :=
  effs.filterMap (fun e => match e with | .invoked tp => some tp | _ => none)

/-- The handler-table hits along the hierarchy walk, most specific first. -/
def mroMatches (table : Nat → Option HandlerFlag) (mro : List Nat) :
    List (Nat × HandlerFlag) :=
  mro.filterMap (fun tp => (table tp).map (fun h => (tp, h)))

/-- The walk the claim describes: the first match, then further matches as
long as every previously taken handler carries `PROPAGATE`. -/
def takeThroughPropagate : List (Nat × HandlerFlag) → List (Nat × HandlerFlag)
  | [] => []
  | (tp, h) :: rest =>
    if h.propagate then (tp, h) :: takeThroughPropagate rest else [(tp, h)]

/-- A table registering a handler for a derived message type (tag 11) with
`PROPAGATE` and one for its base type (tag 10) without flags. -/
def tableW : Nat → Option HandlerFlag := fun tp =>
  if tp = 10 then some ⟨false, false, false⟩
  else if tp = 11 then some ⟨false, false, true⟩
  else none

/-! ## Ports and the built-in `Node` handler table

Tags for the message classes of `message.py`, with their hierarchies:
`PortGet < PortAction < Message` and `PortSet < PortAction < Message`. -/

def messageTag : Nat := 0

def nodeInitializeMessageTag : Nat := 2

def nodeFinalizeMessageTag : Nat := 3

def portActionTag : Nat := 5

def portGetTag : Nat := 6

def portSetTag : Nat := 7

def portGetMro : List Nat := [portGetTag, portActionTag, messageTag]

def portSetMro : List Nat := [portSetTag, portActionTag, messageTag]

/-- The built-in `Node.__message_handler__` table: `on_initialize` and
`on_finalize` with default flags, `on_port_get` registered as
`on(PortGet, flag=REFLECTIVE | SEND_RET)`, and `on_port_set` registered as
`on(PortSet)` — with the default, empty flag (node.py lines 294-305). -/
def nodeMessageHandlerTable : Nat → Option HandlerFlag := fun tp =>
  if tp = nodeInitializeMessageTag then some HandlerFlag.DEFAULT
  else if tp = nodeFinalizeMessageTag then some HandlerFlag.DEFAULT
  else if tp = portGetTag then
    some { reflective := true, send_ret := true, propagate := false }
  else if tp = portSetTag then some HandlerFlag.DEFAULT
  else none

/-- `PortFlag` of `node.py` (`DEFAULT = READABLE`). -/
structure PortFlag where
  readable : Bool
  writable : Bool
  deriving DecidableEq

def PortFlag.DEFAULT : PortFlag := ⟨true, false⟩

/-- An `AttrPort`: `value` stands for the bound node attribute
`getattr(self.node, self.name)`. -/
structure AttrPort (V : Type) where
  name : String
  flag : PortFlag
  value : V
  deriving DecidableEq

/-- `AttrPort.get`: throws `PortError` when the port is not readable. -/
def AttrPort.get {V : Type} (p : AttrPort V) : Except KesErr V :=
  if p.flag.readable then .ok p.value
  else .error (.portError p.name)

/-- `AttrPort.set`: throws `PortError` when the port is not writable,
otherwise rebinds the attribute. -/
def AttrPort.set {V : Type} (p : AttrPort V) (v : V) : Except KesErr (AttrPort V) :=
  if p.flag.writable then .ok { p with value := v }
  else .error (.portError p.name)

/-- `Node._get_port`: a name absent from `port_map` throws `PortError`,
otherwise the port's `get()` runs. -/
def getPort {V : Type} (port_map : List (String × AttrPort V)) (name : String) :
    Except KesErr V :=
  match port_map.lookup name with
  | none => .error (.portError name)
  | some p => p.get

/-- `Node._set_port`: a name absent from `port_map` throws `PortError`,
otherwise the port's `set(value)` runs. -/
def setPort {V : Type} (port_map : List (String × AttrPort V)) (name : String)
    (value : V) : Except KesErr (AttrPort V) :=
  match port_map.lookup name with
  | none => .error (.portError name)
  | some p => p.set value

/-! ## Events and `Network.on_event`

Networks are represented by numeric identifiers.  An event carries its class
hierarchy (`tags`, most specific first), its `traceback` (the networks it
passed through) and its class-level `mode`.  `Event.__init__` binds
`traceback` to a *tuple* `()`, but the `Exception` subtype re-declares
`traceback` in its `__slots__` (shadowing Event's slot) and its `__init__`
re-binds it to a *list* `[]`; `tracebackIsList` records which runtime type
the attribute has.  A network's `event_map` maps an event-type tag to the
subscribers registered for exactly that tag, in registration order (`none`:
the tag is not a key of the map). -/

inductive EventMode where
  | IGNORE
  | THROW_ERR
  | PROPAGATE
  | FORCE_PROPAGATE
  deriving DecidableEq

structure KEvent where
  tags : List Nat
  traceback : List Nat
  tracebackIsList : Bool
  mode : EventMode
  deriving DecidableEq

/-- `Event.add_traceback`: computes `self.traceback + (net,)` into a copy
(`copy(self)`); the receiver itself is unmodified.  When the event is a kes
`Exception`, `self.traceback` is a list, the concatenation is `list + tuple`,
and Python raises `TypeError` instead of producing the copy. -/
def addTraceback (ev : KEvent) (netId : Nat) : Except KesErr KEvent :=
  if ev.tracebackIsList then .error .typeError
  else .ok { ev with traceback := ev.traceback ++ [netId] }

/-- Observable actions of an `on_event` run. -/
inductive NetEffect where
  | deliver (subscriber : Nat) (ev : KEvent)  -- `send_message(i, e)` to a subscriber
  | forwardParent (ev : KEvent)               -- `send_event(event)`: resend to the parent network
  | throwUnsupported                          -- `throw(UnsupportedMessageError(...))`
  deriving DecidableEq

/-- `Network.on_event` (network.py lines 69-82): compute the traceback-extended
copy `e = event.add_traceback(self)` — which raises `TypeError` before any
send when the event's `traceback` is a list, i.e. for every kes `Exception`
event — then deliver `e` to the subscribers of every type in the event's
hierarchy, then: if nothing matched and the mode is `PROPAGATE`, or always
when the mode is `FORCE_PROPAGATE`, resend the *original* `event` to the
parent; if nothing matched and the mode is `THROW_ERR`, throw
`UnsupportedMessageError`.  An `.error` result is the uncaught Python
exception escaping the handler; no effect is produced before it. -/
def onEvent (eventMap : Nat → Option (List Nat)) (netId : Nat) (ev : KEvent) :
    Except KesErr (List NetEffect) :=
  match addTraceback ev netId with
  | .error err => .error err
  | .ok e =>
    let deliveries := ev.tags.flatMap (fun tp =>
      match eventMap tp with
      | none => []
      | some subs => subs.map (fun s => NetEffect.deliver s e))
    let handled := ev.tags.any (fun tp => (eventMap tp).isSome)
    .ok (if (handled = false ∧ ev.mode = EventMode.PROPAGATE)
        ∨ ev.mode = EventMode.FORCE_PROPAGATE then
      deliveries ++ [NetEffect.forwardParent ev]
    else if handled = false ∧ ev.mode = EventMode.THROW_ERR then
      deliveries ++ [NetEffect.throwUnsupported]
    else
      deliveries)

/-- The `(subscriber, event)` pairs delivered, in order. -/
def deliveredOf : List NetEffect → List (Nat × KEvent) :=
  List.filterMap (fun e => match e with | .deliver s ev => some (s, ev) | _ => none)

/-- The events forwarded to the parent network, in order. -/
def forwardedOf : List NetEffect → List KEvent :=
  List.filterMap (fun e => match e with | .forwardParent ev => some ev | _ => none)

/-- A plain `Event` (tuple traceback) whose class sets `mode = PROPAGATE`. -/
def evPlain : KEvent := ⟨[0], [], false, EventMode.PROPAGATE⟩

/-- A kes `Exception` event: list traceback (`Exception.__init__` re-binds
the slot) and the class-level `mode = EventMode.PROPAGATE` of
`exception.Exception`. -/
def evExc : KEvent := ⟨[0], [], true, EventMode.PROPAGATE⟩

def emptyEventMap : Nat → Option (List Nat) := fun _ => none

/-- An event map with subscriber 3 registered for type tag 0. -/
def oneSubMap : Nat → Option (List Nat) := fun tp =>
  if tp = 0 then some [3] else none

/-! ## `Network._node_dealloc` full strong release (claim C6)

In the full-release branch (no phantom registry configured) the source runs
`n_ref = ref(self.records.drop(nid))`, then `gc.collect()`, then
`if (node := n_ref) is not None: self.throw_inner(RuntimeError(...))`
(network.py lines 146-151). -/

/-- A Python weak reference object; calling it (`r()`) yields `deref`:
`some node` while a strong reference to the node survives, `none` once the
node has been collected. -/
structure PyWeakRef (α : Type) where
  deref : Option α

/-- The full-release check as written: `survivor` is what calling the weak
reference yields after `gc.collect()` (`some node` iff another strong
reference to the dropped node survives).  Returns `true` iff `RuntimeError`
is reported.  The source tests `(node := n_ref) is not None` — the
weak-reference *object*, not the call result `n_ref()` — and a bound name
holding a weakref object is never `None`. -/
def nodeDeallocRaises {α : Type} (survivor : Option α) : Bool :=
  let n_ref : PyWeakRef α := ⟨survivor⟩
  let node : Option (PyWeakRef α) := some n_ref
  node.isSome

/-- The check the claim (and spec §3) describe: report an error iff the weak
observation still yields the node (`n_ref() is not None`). -/
def nodeDeallocIntended {α : Type} (survivor : Option α) : Bool :=
  let n_ref : PyWeakRef α := ⟨survivor⟩
  n_ref.deref.isSome

/-! ## Phantom registries (claims C8, C9)

Core `karuha.kes.core.phantom.PhantomNetworkManager`: `_records` is a dict
from issued id to a weak `PhantomRecord`; the stored `Option α` is what the
record's weakref currently yields (`none` once the node was collected
elsewhere); `_count` is the next id to issue.  `get` on a present, still
alive entry returns it; on a present but dead entry it deletes the stale
entry and raises `RuntimeError`; on a missing id it raises `RuntimeError`.
`drop` resolves via `get`, then deletes the entry (`del self._records[nid]`).
`gcRun` models the `gc` method, and `collect` models the external garbage
collection of a node (clearing the weakref) — it is not a manager method.

Builtin `karuha.kes.builtin.phantom.PhantomNetworkManager`: `_nodes` is a
`WeakValueDictionary`, so entries of collected nodes vanish by themselves
(modelled by `WVPhantomManager.collect`); `drop` resolves via `get` and
returns the node *without removing the entry*. -/

structure PhantomManager (α : Type) where
  _records : List (Nat × Option α)
  _count : Nat

def PhantomManager.init (α : Type) : PhantomManager α := ⟨[], 0⟩

def PhantomManager.get {α : Type} (m : PhantomManager α) (nid : Nat) :
    Except KesErr α × PhantomManager α :=
  match m._records.lookup nid with
  | some (some node) => (.ok node, m)
  | some none =>
    (.error (.runtimeError "there is no node with id"),
     { m with _records := m._records.filter (fun kv => kv.1 != nid) })
  | none => (.error (.runtimeError "there is no node with id"), m)

def PhantomManager.new {α : Type} (m : PhantomManager α) (node : α) :
    Nat × PhantomManager α :=
  (m._count, ⟨m._records ++ [(m._count, some node)], m._count + 1⟩)

def PhantomManager.drop {α : Type} (m : PhantomManager α) (nid : Nat) :
    Except KesErr α × PhantomManager α :=
  match m.get nid with
  | (.ok node, m') =>
    (.ok node, { m' with _records := m'._records.filter (fun kv => kv.1 != nid) })
  | (.error e, m') => (.error e, m')

def PhantomManager.gcRun {α : Type} (m : PhantomManager α) : PhantomManager α :=
  { m with _records := m._records.filter (fun kv => kv.2.isSome) }

def PhantomManager.collect {α : Type} (m : PhantomManager α) (nid : Nat) :
    PhantomManager α :=
  { m with _records := m._records.map (fun kv => if kv.1 = nid then (kv.1, none) else kv) }

inductive PhOp (α : Type) where
  | new (node : α)
  | drop (nid : Nat)
  | gc
  | collect (nid : Nat)

def PhantomManager.step {α : Type} (m : PhantomManager α) :
    PhOp α → PhantomManager α × Option Nat
  | .new node => ((m.new node).2, some (m.new node).1)
  | .drop nid => ((m.drop nid).2, none)
  | .gc => (m.gcRun, none)
  | .collect nid => (m.collect nid, none)

def PhantomManager.run {α : Type} (m : PhantomManager α) :
    List (PhOp α) → PhantomManager α × List Nat
  | [] => (m, [])
  | op :: ops =>
    ((((m.step op).1).run ops).1,
     (m.step op).2.toList ++ (((m.step op).1).run ops).2)

structure WVPhantomManager (α : Type) where
  _nodes : List (Nat × α)
  _count : Nat

def WVPhantomManager.init (α : Type) : WVPhantomManager α := ⟨[], 0⟩

def WVPhantomManager.get {α : Type} (m : WVPhantomManager α) (nid : Nat) :
    Except KesErr α :=
  match m._nodes.lookup nid with
  | none => .error (.runtimeError "there is no node with id")
  | some node => .ok node

def WVPhantomManager.new {α : Type} (m : WVPhantomManager α) (node : α) :
    Nat × WVPhantomManager α :=
  (m._count, ⟨m._nodes ++ [(m._count, node)], m._count + 1⟩)

def WVPhantomManager.drop {α : Type} (m : WVPhantomManager α) (nid : Nat) :
    Except KesErr α × WVPhantomManager α :=
  (m.get nid, m)

def WVPhantomManager.collect {α : Type} (m : WVPhantomManager α) (nid : Nat) :
    WVPhantomManager α :=
  { m with _nodes := m._nodes.filter (fun kv => kv.1 != nid) }

inductive WVOp (α : Type) where
  | new (node : α)
  | drop (nid : Nat)
  | collect (nid : Nat)

def WVPhantomManager.step {α : Type} (m : WVPhantomManager α) :
    WVOp α → WVPhantomManager α × Option Nat
  | .new node => ((m.new node).2, some (m.new node).1)
  | .drop nid => ((m.drop nid).2, none)
  | .collect nid => (m.collect nid, none)

def WVPhantomManager.run {α : Type} (m : WVPhantomManager α) :
    List (WVOp α) → WVPhantomManager α × List Nat
  | [] => (m, [])
  | op :: ops =>
    ((((m.step op).1).run ops).1,
     (m.step op).2.toList ++ (((m.step op).1).run ops).2)

/-- The builtin registry holding one live node (id 0, node 5). -/
def wvB : WVPhantomManager Nat := ((WVPhantomManager.init Nat).new 5).2

/-- The core registry holding one live node (id 0, node 7). -/
def phC : PhantomManager Nat := ((PhantomManager.init Nat).new 7).2

/-! ## Theorems -/

theorem shrinkTail_len_le {Node : Type} (records : List (NodeRecord Node))
    (cache : Finset Nat) : (shrinkTail records cache).1.length ≤ records.length := by
  induction records, cache using shrinkTail.induct with
  | case1 records cache h ih =>
    rw [shrinkTail, dif_pos h]
    exact le_trans ih (by simp [List.length_dropLast])
  | case2 records cache h =>
    rw [shrinkTail, dif_neg h]

theorem shrinkTail_bound {Node : Type} (records : List (NodeRecord Node))
    (cache : Finset Nat) (hb : ∀ i ∈ cache, i < records.length) :
    ∀ i ∈ (shrinkTail records cache).2, i + 1 < (shrinkTail records cache).1.length := by
  induction records, cache using shrinkTail.induct with
  | case1 records cache h ih =>
    rw [shrinkTail, dif_pos h]
    refine ih ?_
    intro i hi
    have him : i ∈ cache := Finset.mem_of_mem_erase hi
    have hne : i ≠ records.length - 1 := Finset.ne_of_mem_erase hi
    have := hb i him
    simp only [List.length_dropLast]
    omega
  | case2 records cache h =>
    rw [shrinkTail, dif_neg h]
    intro i hi
    have hi2 : i ∈ cache := hi
    have hi' := hb i hi2
    show i + 1 < records.length
    rcases Nat.eq_zero_or_pos records.length with hz | hp
    · omega
    · have hnl : records.length - 1 ∉ cache := fun hc => h ⟨hp, hc⟩
      have : i ≠ records.length - 1 := fun he => hnl (he ▸ hi2)
      omega

theorem get_ok_inv {Node : Type} {m : RecordManager Node} {nid : Int}
    {r : NodeRecord Node} (h : m.get nid = .ok r) :
    0 ≤ nid ∧ nid.toNat < m._records.length ∧ nid.toNat ∉ m._id_cache := by
  by_contra hc
  rw [RecordManager.get, dif_neg hc] at h
  exact Except.noConfusion h

theorem get_err {Node : Type} (m : RecordManager Node) (nid : Int)
    (h : ¬(0 ≤ nid ∧ nid.toNat < m._records.length ∧ nid.toNat ∉ m._id_cache)) :
    m.get nid = .error (.runtimeError "there is no node with id") := by
  rw [RecordManager.get, dif_neg h]

theorem rmwf_new {Node : Type} (pop : SetPop) (m : RecordManager Node)
    (node : Node) (h : RMWF m) : RMWF (RecordManager.new pop m node).2 := by
  unfold RecordManager.new
  split
  · intro i hi
    simp only [List.length_set]
    exact h i (Finset.mem_of_mem_erase hi)
  · intro i hi
    simp only [List.length_append, List.length_cons, List.length_nil]
    have := h i hi
    omega

theorem rmwf_drop {Node : Type} {m m' : RecordManager Node} {nid : Int}
    {node : Node} (h : RMWF m) (hd : m.drop nid = .ok (node, m')) : RMWF m' := by
  by_cases hif : nid = (m._records.length : Int) - 1
  · rw [RecordManager.drop, if_pos hif] at hd
    rcases hl : m._records.getLast? with _ | record
    · rw [hl] at hd; exact Except.noConfusion hd
    · rw [hl] at hd
      simp only [Except.ok.injEq, Prod.mk.injEq] at hd
      rcases hd with ⟨_, hm'⟩
      subst hm'
      intro i hi
      refine shrinkTail_bound _ _ ?_ i hi
      intro j hj
      have := h j hj
      simp only [List.length_dropLast]
      omega
  · rw [RecordManager.drop, if_neg hif] at hd
    rcases hg : m.get nid with e | record
    · rw [hg] at hd; exact Except.noConfusion hd
    · rw [hg] at hd
      simp only [Except.ok.injEq, Prod.mk.injEq] at hd
      rcases hd with ⟨_, hm'⟩
      subst hm'
      rcases get_ok_inv hg with ⟨h0, hlt, hnc⟩
      have hne : nid.toNat ≠ m._records.length - 1 := by
        intro heq
        apply hif
        omega
      intro i hi
      show i + 1 < m._records.length
      rcases Finset.mem_insert.mp hi with he | hm
      · subst he
        omega
      · exact h i hm

theorem rmwf_of_reachable {Node : Type} {m : RecordManager Node}
    (h : RMReachable m) : RMWF m := by
  induction h with
  | init => intro i hi; simp [RecordManager.init] at hi
  | step_new pop node _ ih => exact rmwf_new pop _ node ih
  | step_drop nid node _ hd ih => exact rmwf_drop ih hd

theorem reachable_foldl_new {l : List Nat} {m : RecordManager Nat}
    (h : RMReachable m) :
    RMReachable (l.foldl (fun m k => (RecordManager.new popMin m k).2) m) := by
  induction l generalizing m with
  | nil => exact h
  | cons a l ih => exact ih (RMReachable.step_new popMin a h)

theorem rm10_reachable : RMReachable rm10 :=
  reachable_foldl_new RMReachable.init

theorem rmD1_reachable : RMReachable rmD1 :=
  @RMReachable.step_drop Nat 1 1 rm10 rmD1 rm10_reachable (by decide)

theorem rmD2_reachable : RMReachable rmD2 :=
  @RMReachable.step_drop Nat 8 8 rmD1 rmD2 rmD1_reachable (by decide)

/-- C3 (amended): when the free-id cache is nonempty, `new(node)` reuses one
of the previously freed ids — whichever element `set.pop()` yields, which need
not be the smallest; when no freed id is available it appends, returning the
current storage length. -/
theorem kes_c3_new_reuses_freed_id {Node : Type} (pop : SetPop)
    (m : RecordManager Node) (node : Node) :
    (m._id_cache.Nonempty →
      (RecordManager.new pop m node).1.toNat ∈ m._id_cache
      ∧ 0 ≤ (RecordManager.new pop m node).1)
    ∧ (m._id_cache = ∅ →
      (RecordManager.new pop m node).1 = (m._records.length : Int)) := by
  constructor
  · intro hne
    rw [RecordManager.new, if_pos hne]
    refine ⟨?_, Int.natCast_nonneg _⟩
    simpa using pop.pick_mem m._id_cache hne
  · intro hemp
    have : ¬m._id_cache.Nonempty := by simp [hemp]
    rw [RecordManager.new, if_neg this]

/-- C3 witness: on the arena `rmD1` (freed cache `{1}`), `new` with the
min-popping policy returns a freed id. -/
theorem kes_c3_witness :
    (RecordManager.new popMin rmD1 0).1.toNat ∈ rmD1._id_cache :=
  ((kes_c3_new_reuses_freed_id popMin rmD1 0).1 (by decide)).1

/-- C3 counterexample: in the reachable arena state `rmD2` the smallest freed
id is `1`, yet `new` may return `8` — `set.pop()` removes an arbitrary
element, and CPython's set table does yield `8` for the set `{1, 8}`.  So
`new` does not return the smallest previously freed id. -/
theorem kes_c3_counterexample :
    RMReachable rmD2
    ∧ rmD2._id_cache.min = (1 : Nat)
    ∧ (RecordManager.new popMax rmD2 42).1 = 8 :=
  ⟨rmD2_reachable, by decide, by decide⟩

/-- C4 (confirmed): in every reachable arena state, `new` returns an id that
was not live before the call and becomes live after it (so it is fresh among
the currently-live ids), and `get(id)` on a negative, never-allocated or
freed id fails with `RuntimeError`. -/
theorem kes_c4_id_stability {Node : Type} (pop : SetPop)
    (m : RecordManager Node) (node : Node) (h : RMReachable m) :
    (0 ≤ (RecordManager.new pop m node).1
      ∧ (RecordManager.new pop m node).1.toNat ∉ liveIds m
      ∧ liveIds (RecordManager.new pop m node).2
          = insert (RecordManager.new pop m node).1.toNat (liveIds m))
    ∧ (∀ nid : Int,
        (nid < 0 ∨ (m._records.length : Int) ≤ nid
          ∨ (0 ≤ nid ∧ nid.toNat ∈ m._id_cache)) →
        m.get nid = .error (.runtimeError "there is no node with id")) := by
  have hwf := rmwf_of_reachable h
  constructor
  · by_cases hne : m._id_cache.Nonempty
    · rw [RecordManager.new, if_pos hne]
      have hpk : pop.pick m._id_cache ∈ m._id_cache := pop.pick_mem _ hne
      have hlt : pop.pick m._id_cache + 1 < m._records.length := hwf _ hpk
      refine ⟨Int.natCast_nonneg _, ?_, ?_⟩
      · simp [liveIds, Finset.mem_filter, hpk]
      · ext i
        simp only [liveIds, Int.toNat_natCast, Finset.mem_filter,
          Finset.mem_range, Finset.mem_insert, Finset.mem_erase,
          List.length_set, not_and, ne_eq]
        constructor
        · rintro ⟨hi, hni⟩
          by_cases hip : i = pop.pick m._id_cache
          · exact Or.inl hip
          · exact Or.inr ⟨hi, fun hc => (hni (fun he => hip he) hc).elim⟩
        · rintro (hip | ⟨hi, hni⟩)
          · subst hip
            exact ⟨by omega, fun hc => (hc rfl).elim⟩
          · exact ⟨hi, fun _ hc => hni hc⟩
    · rw [RecordManager.new, if_neg hne]
      have hcl : m._records.length ∉ m._id_cache := by
        intro hc
        have := hwf _ hc
        omega
      refine ⟨Int.natCast_nonneg _, ?_, ?_⟩
      · simp [liveIds, Finset.mem_filter]
      · ext i
        simp only [liveIds, Int.toNat_natCast, Finset.mem_filter,
          Finset.mem_range, Finset.mem_insert, List.length_append,
          List.length_cons, List.length_nil]
        constructor
        · rintro ⟨hi, hni⟩
          by_cases hil : i = m._records.length
          · exact Or.inl hil
          · exact Or.inr ⟨by omega, hni⟩
        · rintro (hil | ⟨hi, hni⟩)
          · subst hil
            exact ⟨by omega, hcl⟩
          · exact ⟨by omega, hni⟩
  · intro nid hcase
    apply get_err
    rintro ⟨h0, hlt, hnc⟩
    rcases hcase with hneg | hbig | ⟨_, hmem⟩
    · omega
    · omega
    · exact hnc hmem

/-- C4 witness: instantiated on the reachable ten-record arena `rm10`. -/
theorem kes_c4_witness :
    liveIds (RecordManager.new popMin rm10 7).2
      = insert (RecordManager.new popMin rm10 7).1.toNat (liveIds rm10) :=
  (kes_c4_id_stability popMin rm10 7 rm10_reachable).1.2.2

/-- C5 (confirmed): in every reachable arena state the last storage slot is
never a freed hole; when no hole exists the storage length equals the number
of live records; and dropping the highest id (`len - 1`, the highest live id
by the first part) strictly shrinks the storage and leaves no freed hole at
the new tail. -/
theorem kes_c5_tail_compaction {Node : Type} (m : RecordManager Node)
    (h : RMReachable m) :
    (∀ i ∈ m._id_cache, i + 1 < m._records.length)
    ∧ (m._id_cache = ∅ → m._records.length = (liveIds m).card)
    ∧ (∀ (nid : Int) (node : Node) (m' : RecordManager Node),
        nid = (m._records.length : Int) - 1 → m.drop nid = .ok (node, m') →
        m'._records.length < m._records.length
        ∧ ∀ i ∈ m'._id_cache, i + 1 < m'._records.length) := by
  have hwf := rmwf_of_reachable h
  refine ⟨hwf, ?_, ?_⟩
  · intro hemp
    simp [liveIds, hemp]
  · intro nid node m' hif hd
    refine ⟨?_, rmwf_drop hwf hd⟩
    rw [RecordManager.drop, if_pos hif] at hd
    rcases hl : m._records.getLast? with _ | record
    · rw [hl] at hd; exact Except.noConfusion hd
    · rw [hl] at hd
      simp only [Except.ok.injEq, Prod.mk.injEq] at hd
      rcases hd with ⟨_, hm'⟩
      have hne : m._records ≠ [] := by
        intro he
        rw [he] at hl
        simp at hl
      have hpos : 0 < m._records.length := List.length_pos.mpr hne
      have hlen : m'._records.length
          ≤ m._records.dropLast.length := by
        rw [← hm']
        exact shrinkTail_len_le _ _
      simp only [List.length_dropLast] at hlen
      omega

/-- C5 witness: the ten-record arena has no hole, and its storage length is
its live-record count. -/
theorem kes_c5_witness : rm10._records.length = (liveIds rm10).card :=
  (kes_c5_tail_compaction rm10 rm10_reachable).2.1 (by decide)

theorem dispatchLoop_no_match (table : Nat → Option HandlerFlag)
    (hasTarget : Bool) (mro : List Nat) (h : mroMatches table mro = []) :
    dispatchLoop table hasTarget mro = ([], false, none) := by
  induction mro with
  | nil => rfl
  | cons tp rest ih =>
    cases htp : table tp with
    | none =>
      simp only [mroMatches, List.filterMap_cons, htp, Option.map_none'] at h
      simp only [dispatchLoop, htp]
      exact ih h
    | some hdl =>
      simp [mroMatches, List.filterMap_cons, htp] at h

theorem invokedTags_nil : invokedTags [] = [] := rfl

theorem invokedTags_cons_invoked (tp : Nat) (l : List Effect) :
    invokedTags (.invoked tp :: l) = tp :: invokedTags l := rfl

theorem invokedTags_cons_sentData (tp : Nat) (l : List Effect) :
    invokedTags (.sentData tp :: l) = invokedTags l := rfl

theorem invokedTags_cons_passedDown (tp : Nat) (l : List Effect) :
    invokedTags (.passedDown tp :: l) = invokedTags l := rfl

theorem invokedTags_cons_sentErr (e : KesErr) (l : List Effect) :
    invokedTags (.sentErr e :: l) = invokedTags l := rfl

theorem invokedTags_append (l₁ l₂ : List Effect) :
    invokedTags (l₁ ++ l₂) = invokedTags l₁ ++ invokedTags l₂ :=
  List.filterMap_append l₁ l₂ _

theorem dl_prefix (table : Nat → Option HandlerFlag) (hasTarget : Bool)
    (mro : List Nat) :
    ∃ t, (takeThroughPropagate (mroMatches table mro)).map Prod.fst
        = invokedTags (dispatchLoop table hasTarget mro).1 ++ t := by
  induction mro with
  | nil => exact ⟨[], rfl⟩
  | cons tp rest ih =>
    cases htp : table tp with
    | none =>
      have hm : mroMatches table (tp :: rest) = mroMatches table rest := by
        simp [mroMatches, htp]
      rw [hm]
      simp only [dispatchLoop, htp]
      exact ih
    | some hdl =>
      have hm : mroMatches table (tp :: rest)
          = (tp, hdl) :: mroMatches table rest := by
        simp [mroMatches, htp]
      rw [hm]
      obtain ⟨rf, sr, pg⟩ := hdl
      obtain ⟨t, ht⟩ := ih
      simp only [dispatchLoop, htp]
      cases sr <;> cases hasTarget <;> cases rf <;> cases pg <;>
        simp [takeThroughPropagate, invokedTags_cons_invoked,
          invokedTags_cons_sentData, invokedTags_cons_passedDown,
          invokedTags_cons_sentErr, invokedTags_nil, invokedTags_append, ht]

theorem dl_head (table : Nat → Option HandlerFlag) (hasTarget : Bool)
    (mro : List Nat) :
    (invokedTags (dispatchLoop table hasTarget mro).1).head?
      = ((mroMatches table mro).map Prod.fst).head? := by
  induction mro with
  | nil => rfl
  | cons tp rest ih =>
    cases htp : table tp with
    | none =>
      have hm : mroMatches table (tp :: rest) = mroMatches table rest := by
        simp [mroMatches, htp]
      rw [hm]
      simp only [dispatchLoop, htp]
      exact ih
    | some hdl =>
      have hm : mroMatches table (tp :: rest)
          = (tp, hdl) :: mroMatches table rest := by
        simp [mroMatches, htp]
      rw [hm]
      obtain ⟨rf, sr, pg⟩ := hdl
      simp only [dispatchLoop, htp]
      cases sr <;> cases hasTarget <;> cases rf <;> cases pg <;>
        simp [invokedTags_cons_invoked, invokedTags_cons_sentData,
          invokedTags_cons_passedDown, invokedTags_cons_sentErr,
          invokedTags_nil, invokedTags_append]

theorem dl_notarget (table : Nat → Option HandlerFlag) (mro : List Nat) :
    invokedTags (dispatchLoop table false mro).1
      = (takeThroughPropagate (mroMatches table mro)).map Prod.fst
    ∧ (dispatchLoop table false mro).2.2 = none := by
  induction mro with
  | nil => exact ⟨rfl, rfl⟩
  | cons tp rest ih =>
    cases htp : table tp with
    | none =>
      have hm : mroMatches table (tp :: rest) = mroMatches table rest := by
        simp [mroMatches, htp]
      rw [hm]
      simp only [dispatchLoop, htp]
      exact ih
    | some hdl =>
      have hm : mroMatches table (tp :: rest)
          = (tp, hdl) :: mroMatches table rest := by
        simp [mroMatches, htp]
      rw [hm]
      obtain ⟨rf, sr, pg⟩ := hdl
      obtain ⟨ih1, ih2⟩ := ih
      simp only [dispatchLoop, htp]
      cases sr <;> cases rf <;> cases pg <;>
        simp [takeThroughPropagate, invokedTags_cons_invoked,
          invokedTags_cons_sentData, invokedTags_cons_passedDown,
          invokedTags_cons_sentErr, invokedTags_nil, invokedTags_append,
          ih1, ih2]

/-- Claim C1 (confirmed): `handle_message` (on a non-phantom-owned node)
walks the message's hierarchy most specific first — the handlers it invokes
are a prefix of the matched-handler walk that continues exactly while the
taken handler carries `PROPAGATE` (and the full walk when the message is not
a reflect envelope); the first handler invoked is the first (most specific)
match; and if no handler in the hierarchy matches, it sends
`UnsupportedMessageError` to the owning network and cancels the task. -/
theorem kes_c1_dispatch (table : Nat → Option HandlerFlag) (hasTarget : Bool)
    (mro : List Nat) :
    (∃ t, (takeThroughPropagate (mroMatches table mro)).map Prod.fst
        = invokedTags (effectsOf (handleMessage false table hasTarget mro)) ++ t)
    ∧ (invokedTags (effectsOf (handleMessage false table hasTarget mro))).head?
        = ((mroMatches table mro).map Prod.fst).head?
    ∧ (hasTarget = false →
        invokedTags (effectsOf (handleMessage false table hasTarget mro))
          = (takeThroughPropagate (mroMatches table mro)).map Prod.fst)
    ∧ (mroMatches table mro = [] →
        handleMessage false table hasTarget mro
          = .cancelled [.sentErr .unsupportedMessage] .unsupportedMessage) := by
  have hinv : invokedTags (effectsOf (handleMessage false table hasTarget mro))
      = invokedTags (dispatchLoop table hasTarget mro).1 := by
    rcases hr : dispatchLoop table hasTarget mro with ⟨effs, handled, canc⟩
    cases canc <;> cases handled <;>
      simp [handleMessage, hr, effectsOf, invokedTags, List.filterMap_append]
  obtain ⟨t, ht⟩ := dl_prefix table hasTarget mro
  refine ⟨⟨t, by rw [hinv]; exact ht⟩,
    by rw [hinv]; exact dl_head table hasTarget mro, ?_, ?_⟩
  · intro hfalse
    subst hfalse
    rw [hinv]
    exact (dl_notarget table mro).1
  · intro hnone
    have := dispatchLoop_no_match table hasTarget mro hnone
    simp [handleMessage, this]

/-- C1 witness: sending the derived type (hierarchy `[11, 10, 0]`) invokes
the derived handler first and, since it carries `PROPAGATE`, the base
handler next. -/
theorem kes_c1_witness :
    invokedTags (effectsOf (handleMessage false tableW false [11, 10, 0]))
      = [11, 10] := by
  have h := (kes_c1_dispatch tableW false [11, 10, 0]).2.2.1 rfl
  rw [h]
  decide

/-- Claim C10 (confirmed): a node owned by a (core) `PhantomNetwork` never
dispatches: for every handler table, message shape and hierarchy,
`handle_message` sends `RuntimeError("phantom node does not receive
messages")` to the owning network and cancels the task, invoking no
handler. -/
theorem kes_c10_phantom_node_no_dispatch (table : Nat → Option HandlerFlag)
    (hasTarget : Bool) (mro : List Nat) :
    handleMessage true table hasTarget mro
      = .cancelled [.sentErr (.runtimeError "phantom node does not receive messages")]
          (.runtimeError "phantom node does not receive messages")
    ∧ invokedTags (effectsOf (handleMessage true table hasTarget mro)) = [] :=
  ⟨rfl, rfl⟩

/-- C7 counterexample: the built-in `PortSet` handler is registered with the
default, empty flag — it carries neither `REFLECTIVE` nor `SEND_RET` — so a
`ReflectMessage`-wrapped `PortSet` invokes the handler but sends no reply to
the reflect target. -/
theorem kes_c7_counterexample :
    nodeMessageHandlerTable portSetTag
      = some { reflective := false, send_ret := false, propagate := false }
    ∧ handleMessage false nodeMessageHandlerTable true portSetMro
        = .ok [.invoked portSetTag] :=
  ⟨rfl, rfl⟩

/-- C7 (amended): `PortGet`'s built-in handler carries `REFLECTIVE` and
`SEND_RET`, so a `ReflectMessage`-wrapped `PortGet` replies to the reflect
target with a `DataMessage`; `PortSet`'s built-in handler carries no flags
(so a wrapped `PortSet` sends no reply); both resolve the requested name
through the node's `port_map`, and a name absent from the `port_map` causes
a `PortError`. -/
theorem kes_c7_port_handlers {V : Type} (port_map : List (String × AttrPort V))
    (name : String) (value : V) :
    nodeMessageHandlerTable portGetTag
      = some { reflective := true, send_ret := true, propagate := false }
    ∧ nodeMessageHandlerTable portSetTag = some HandlerFlag.DEFAULT
    ∧ handleMessage false nodeMessageHandlerTable true portGetMro
        = .ok [.invoked portGetTag, .sentData portGetTag]
    ∧ handleMessage false nodeMessageHandlerTable true portSetMro
        = .ok [.invoked portSetTag]
    ∧ (port_map.lookup name = none →
        getPort port_map name = .error (.portError name)
        ∧ setPort port_map name value = .error (.portError name))
    ∧ (∀ p : AttrPort V, port_map.lookup name = some p →
        getPort port_map name = p.get
        ∧ setPort port_map name value = p.set value) := by
  refine ⟨rfl, rfl, rfl, rfl, ?_, ?_⟩
  · intro h
    exact ⟨by rw [getPort, h], by rw [setPort, h]⟩
  · intro p h
    exact ⟨by rw [getPort, h], by rw [setPort, h]⟩

/-- C7 witness: on an empty port map, every port access is a `PortError`. -/
theorem kes_c7_witness :
    getPort ([] : List (String × AttrPort Nat)) "x" = .error (.portError "x") :=
  ((kes_c7_port_handlers ([] : List (String × AttrPort Nat)) "x" 0).2.2.2.2.1
    rfl).1

theorem deliveredOf_append (l₁ l₂ : List NetEffect) :
    deliveredOf (l₁ ++ l₂) = deliveredOf l₁ ++ deliveredOf l₂ :=
  List.filterMap_append l₁ l₂ _

theorem forwardedOf_append (l₁ l₂ : List NetEffect) :
    forwardedOf (l₁ ++ l₂) = forwardedOf l₁ ++ forwardedOf l₂ :=
  List.filterMap_append l₁ l₂ _

theorem deliveredOf_map_deliver (e : KEvent) (subs : List Nat) :
    deliveredOf (subs.map (fun s => NetEffect.deliver s e))
      = subs.map (fun s => (s, e)) := by
  induction subs with
  | nil => rfl
  | cons s ss ih =>
    simp only [List.map_cons, deliveredOf, List.filterMap_cons] at ih ⊢
    exact congrArg _ ih

theorem forwardedOf_map_deliver (e : KEvent) (subs : List Nat) :
    forwardedOf (subs.map (fun s => NetEffect.deliver s e)) = [] := by
  induction subs with
  | nil => rfl
  | cons s ss ih =>
    simp only [List.map_cons, forwardedOf, List.filterMap_cons] at ih ⊢
    exact ih

theorem deliveredOf_deliveries (eventMap : Nat → Option (List Nat)) (e : KEvent)
    (tags : List Nat) :
    deliveredOf (tags.flatMap (fun tp =>
        match eventMap tp with
        | none => []
        | some subs => subs.map (fun s => NetEffect.deliver s e)))
      = tags.flatMap (fun tp => ((eventMap tp).getD []).map (fun s => (s, e))) := by
  induction tags with
  | nil => rfl
  | cons tp rest ih =>
    rw [List.flatMap_cons, List.flatMap_cons, deliveredOf_append, ih]
    cases hm : eventMap tp with
    | none => simp [deliveredOf]
    | some subs => simp [deliveredOf_map_deliver]

theorem forwardedOf_deliveries (eventMap : Nat → Option (List Nat)) (e : KEvent)
    (tags : List Nat) :
    forwardedOf (tags.flatMap (fun tp =>
        match eventMap tp with
        | none => []
        | some subs => subs.map (fun s => NetEffect.deliver s e))) = [] := by
  induction tags with
  | nil => rfl
  | cons tp rest ih =>
    rw [List.flatMap_cons, forwardedOf_append, ih]
    cases hm : eventMap tp with
    | none => rfl
    | some subs => simp [forwardedOf_map_deliver]

/-- Claim C2 (amended): for every event arriving at `on_event`: if the
event's `traceback` attribute is a *list* — as it is for every kes
`Exception` event, the only events of the repository whose mode is
`PROPAGATE` — `add_traceback` raises `TypeError` and nothing is delivered or
forwarded; otherwise (tuple traceback) a *copy* of the event with this
network appended to its traceback is what the subscribers registered for the
types of the event's hierarchy receive, in hierarchy order then registration
order, and — when no subscriber type matched and the mode is `PROPAGATE`, or
unconditionally when the mode is `FORCE_PROPAGATE` — the *original* event,
its traceback unchanged, is forwarded to the parent network exactly once. -/
theorem kes_c2_event_fanout (eventMap : Nat → Option (List Nat)) (netId : Nat)
    (ev : KEvent) :
    (ev.tracebackIsList = true →
      onEvent eventMap netId ev = .error .typeError)
    ∧ (ev.tracebackIsList = false →
      addTraceback ev netId
          = .ok { ev with traceback := ev.traceback ++ [netId] }
      ∧ (onEvent eventMap netId ev).toOption.map deliveredOf
          = some (ev.tags.flatMap (fun tp =>
              ((eventMap tp).getD []).map
                (fun s => (s, { ev with traceback := ev.traceback ++ [netId] }))))
      ∧ (onEvent eventMap netId ev).toOption.map forwardedOf
          = some (if ((ev.tags.any fun tp => (eventMap tp).isSome) = false
                ∧ ev.mode = EventMode.PROPAGATE)
                ∨ ev.mode = EventMode.FORCE_PROPAGATE
              then [ev] else [])) := by
  constructor
  · intro hl
    rw [onEvent, addTraceback, if_pos hl]
  · intro hl
    have hadd : addTraceback ev netId
        = .ok { ev with traceback := ev.traceback ++ [netId] } := by
      rw [addTraceback, if_neg (by rw [hl]; exact Bool.false_ne_true)]
    have hok : onEvent eventMap netId ev
        = .ok (
          let e : KEvent := { ev with traceback := ev.traceback ++ [netId] }
          let deliveries := ev.tags.flatMap (fun tp =>
            match eventMap tp with
            | none => []
            | some subs => subs.map (fun s => NetEffect.deliver s e))
          let handled := ev.tags.any (fun tp => (eventMap tp).isSome)
          if (handled = false ∧ ev.mode = EventMode.PROPAGATE)
              ∨ ev.mode = EventMode.FORCE_PROPAGATE then
            deliveries ++ [NetEffect.forwardParent ev]
          else if handled = false ∧ ev.mode = EventMode.THROW_ERR then
            deliveries ++ [NetEffect.throwUnsupported]
          else
            deliveries) := by
      rw [onEvent, hadd]
    refine ⟨hadd, ?_, ?_⟩
    · rw [hok]
      simp only [Except.toOption, Option.map_some']
      congr 1
      by_cases h1 : ((ev.tags.any fun tp => (eventMap tp).isSome) = false
          ∧ ev.mode = EventMode.PROPAGATE) ∨ ev.mode = EventMode.FORCE_PROPAGATE
      · rw [if_pos h1, deliveredOf_append, deliveredOf_deliveries]
        simp [deliveredOf]
      · rw [if_neg h1]
        by_cases h2 : (ev.tags.any fun tp => (eventMap tp).isSome) = false
            ∧ ev.mode = EventMode.THROW_ERR
        · rw [if_pos h2, deliveredOf_append, deliveredOf_deliveries]
          simp [deliveredOf]
        · rw [if_neg h2, deliveredOf_deliveries]
    · rw [hok]
      simp only [Except.toOption, Option.map_some']
      congr 1
      by_cases h1 : ((ev.tags.any fun tp => (eventMap tp).isSome) = false
          ∧ ev.mode = EventMode.PROPAGATE) ∨ ev.mode = EventMode.FORCE_PROPAGATE
      · rw [if_pos h1, if_pos h1, forwardedOf_append, forwardedOf_deliveries]
        simp [forwardedOf]
      · rw [if_neg h1, if_neg h1]
        by_cases h2 : (ev.tags.any fun tp => (eventMap tp).isSome) = false
            ∧ ev.mode = EventMode.THROW_ERR
        · rw [if_pos h2, forwardedOf_append, forwardedOf_deliveries]
          simp [forwardedOf]
        · rw [if_neg h2, forwardedOf_deliveries]

/-- C2 counterexample: a kes `Exception` event (list-typed traceback, the
only `mode = PROPAGATE` events in the repository) arriving at `on_event`
raises `TypeError` inside `add_traceback` — whether or not a subscriber is
registered for its type — so the network is not appended to its traceback,
no subscriber receives it, and nothing is forwarded to the parent, contrary
to the claim. -/
theorem kes_c2_counterexample :
    evExc.mode = EventMode.PROPAGATE
    ∧ onEvent oneSubMap 7 evExc = .error .typeError
    ∧ onEvent emptyEventMap 7 evExc = .error .typeError :=
  ⟨rfl, by decide, by decide⟩

/-- C2 witness: a plain tuple-traceback `PROPAGATE` event with no subscriber
is forwarded to the parent exactly once, as the original object. -/
theorem kes_c2_witness :
    (onEvent emptyEventMap 7 evPlain).toOption.map forwardedOf
      = some [evPlain] := by
  have h := ((kes_c2_event_fanout emptyEventMap 7 evPlain).2 rfl).2.2
  rw [h]
  decide

/-- Claim C6 is right and the code is wrong: the release check compares the
weak-reference object itself against `None`, so a full strong release
reports `RuntimeError` even when no external strong reference survives
(and indeed for every `survivor` value), whereas the described check
reports an error only when a reference survives. -/
theorem kes_c6_dealloc_always_raises :
    nodeDeallocRaises (none : Option Unit) = true
    ∧ nodeDeallocIntended (none : Option Unit) = false
    ∧ ∀ survivor : Option Unit, nodeDeallocRaises survivor = true :=
  ⟨rfl, rfl, fun _ => rfl⟩

theorem ph_get_count {α : Type} (m : PhantomManager α) (nid : Nat) :
    ((m.get nid).2)._count = m._count := by
  unfold PhantomManager.get
  rcases m._records.lookup nid with _ | (_ | node) <;> rfl

theorem ph_drop_count {α : Type} (m : PhantomManager α) (nid : Nat) :
    ((m.drop nid).2)._count = m._count := by
  unfold PhantomManager.drop
  rcases hg : m.get nid with ⟨e | node, m'⟩
  · have := ph_get_count m nid
    rw [hg] at this
    exact this
  · have := ph_get_count m nid
    rw [hg] at this
    exact this

theorem ph_step_count {α : Type} (m : PhantomManager α) (op : PhOp α) :
    m._count ≤ ((m.step op).1)._count := by
  cases op with
  | new node => exact Nat.le_succ _
  | drop nid => exact le_of_eq (ph_drop_count m nid).symm
  | gc => exact le_refl _
  | collect nid => exact le_refl _

theorem ph_run_ids {α : Type} (ops : List (PhOp α)) :
    ∀ m : PhantomManager α,
      List.Chain' (· < ·) ((m.run ops).2)
      ∧ ∀ i ∈ (m.run ops).2, m._count ≤ i := by
  induction ops with
  | nil =>
    intro m
    exact ⟨List.chain'_nil, by intro i hi; simp [PhantomManager.run] at hi⟩
  | cons op ops ih =>
    intro m
    cases op with
    | new node =>
      obtain ⟨ihc, ihb⟩ := ih ((m.step (PhOp.new node)).1)
      have hcc : ((m.step (PhOp.new node)).1)._count = m._count + 1 := rfl
      have hrun : ((m.run (PhOp.new node :: ops)).2)
          = m._count :: (((m.step (PhOp.new node)).1).run ops).2 := by
        simp [PhantomManager.run, PhantomManager.step, PhantomManager.new,
          Option.toList]
      rw [hrun]
      constructor
      · refine List.chain'_cons'.mpr ⟨?_, ihc⟩
        intro b hb
        have hbm := List.mem_of_mem_head? hb
        have := ihb b hbm
        omega
      · intro i hi
        rcases List.mem_cons.mp hi with he | hm
        · omega
        · have := ihb i hm
          omega
    | drop nid =>
      obtain ⟨ihc, ihb⟩ := ih ((m.step (PhOp.drop nid)).1)
      have hcc : ((m.step (PhOp.drop nid)).1)._count = m._count :=
        ph_drop_count m nid
      have hrun : ((m.run (PhOp.drop nid :: ops)).2)
          = (((m.step (PhOp.drop nid)).1).run ops).2 := by
        simp [PhantomManager.run, PhantomManager.step, Option.toList]
      rw [hrun]
      refine ⟨ihc, fun i hi => ?_⟩
      have := ihb i hi
      omega
    | gc =>
      obtain ⟨ihc, ihb⟩ := ih ((m.step PhOp.gc).1)
      have hcc : ((m.step (PhOp.gc : PhOp α)).1)._count = m._count := rfl
      have hrun : ((m.run ((PhOp.gc : PhOp α) :: ops)).2)
          = (((m.step (PhOp.gc : PhOp α)).1).run ops).2 := by
        simp [PhantomManager.run, PhantomManager.step, Option.toList]
      rw [hrun]
      refine ⟨ihc, fun i hi => ?_⟩
      have := ihb i hi
      omega
    | collect nid =>
      obtain ⟨ihc, ihb⟩ := ih ((m.step (PhOp.collect nid)).1)
      have hcc : ((m.step (PhOp.collect nid : PhOp α)).1)._count = m._count := rfl
      have hrun : ((m.run (PhOp.collect nid :: ops)).2)
          = (((m.step (PhOp.collect nid)).1).run ops).2 := by
        simp [PhantomManager.run, PhantomManager.step, Option.toList]
      rw [hrun]
      refine ⟨ihc, fun i hi => ?_⟩
      have := ihb i hi
      omega

theorem chain_lt_nodup (l : List Nat) (h : List.Chain' (· < ·) l) : l.Nodup :=
  (List.chain'_iff_pairwise.mp h).imp ne_of_lt

theorem wv_run_ids {α : Type} (ops : List (WVOp α)) :
    ∀ m : WVPhantomManager α,
      List.Chain' (· < ·) ((m.run ops).2)
      ∧ ∀ i ∈ (m.run ops).2, m._count ≤ i := by
  induction ops with
  | nil =>
    intro m
    exact ⟨List.chain'_nil, by intro i hi; simp [WVPhantomManager.run] at hi⟩
  | cons op ops ih =>
    intro m
    cases op with
    | new node =>
      obtain ⟨ihc, ihb⟩ := ih ((m.step (WVOp.new node)).1)
      have hcc : ((m.step (WVOp.new node)).1)._count = m._count + 1 := rfl
      have hrun : ((m.run (WVOp.new node :: ops)).2)
          = m._count :: (((m.step (WVOp.new node)).1).run ops).2 := by
        simp [WVPhantomManager.run, WVPhantomManager.step, WVPhantomManager.new,
          Option.toList]
      rw [hrun]
      constructor
      · refine List.chain'_cons'.mpr ⟨?_, ihc⟩
        intro b hb
        have hbm := List.mem_of_mem_head? hb
        have := ihb b hbm
        omega
      · intro i hi
        rcases List.mem_cons.mp hi with he | hm
        · omega
        · have := ihb i hm
          omega
    | drop nid =>
      obtain ⟨ihc, ihb⟩ := ih ((m.step (WVOp.drop nid)).1)
      have hcc : ((m.step (WVOp.drop nid)).1)._count = m._count := rfl
      have hrun : ((m.run (WVOp.drop nid :: ops)).2)
          = (((m.step (WVOp.drop nid)).1).run ops).2 := by
        simp [WVPhantomManager.run, WVPhantomManager.step, Option.toList]
      rw [hrun]
      refine ⟨ihc, fun i hi => ?_⟩
      have := ihb i hi
      omega
    | collect nid =>
      obtain ⟨ihc, ihb⟩ := ih ((m.step (WVOp.collect nid)).1)
      have hcc : ((m.step (WVOp.collect nid : WVOp α)).1)._count = m._count := rfl
      have hrun : ((m.run (WVOp.collect nid :: ops)).2)
          = (((m.step (WVOp.collect nid)).1).run ops).2 := by
        simp [WVPhantomManager.run, WVPhantomManager.step, Option.toList]
      rw [hrun]
      refine ⟨ihc, fun i hi => ?_⟩
      have := ihb i hi
      omega

theorem lookup_filter_ne {β : Type} (l : List (Nat × β)) (nid : Nat) :
    (l.filter (fun kv => kv.1 != nid)).lookup nid = none := by
  induction l with
  | nil => rfl
  | cons kv l ih =>
    by_cases hk : kv.1 = nid
    · simp [List.filter_cons, hk, ih]
    · have hne : (nid == kv.1) = false :=
        beq_eq_false_iff_ne.mpr (fun he => hk he.symm)
      simp [List.filter_cons, hk, List.lookup, hne, ih]

/-- Claim C9 (confirmed): for both phantom registries, the ids issued by
`new` over any sequence of operations (including drops, explicit gc and
external collection of nodes) are strictly increasing, hence never reused. -/
theorem kes_c9_phantom_ids_increasing {α : Type} (ops : List (PhOp α))
    (opsB : List (WVOp α)) :
    (List.Chain' (· < ·) (((PhantomManager.init α).run ops).2)
      ∧ (((PhantomManager.init α).run ops).2).Nodup)
    ∧ (List.Chain' (· < ·) (((WVPhantomManager.init α).run opsB).2)
      ∧ (((WVPhantomManager.init α).run opsB).2).Nodup) := by
  obtain ⟨h1, _⟩ := ph_run_ids ops (PhantomManager.init α)
  obtain ⟨h2, _⟩ := wv_run_ids opsB (WVPhantomManager.init α)
  exact ⟨⟨h1, chain_lt_nodup _ h1⟩, ⟨h2, chain_lt_nodup _ h2⟩⟩

/-- C8 (amended): in the core registry, `drop(id)` on a live entry resolves
the node like `get` and removes the entry, so an immediately following
`get(id)` fails with `RuntimeError` even though the node is alive; in the
builtin (WeakValueDictionary-based) registry, `drop(id)` resolves the node
but does **not** remove the entry, so a following `get(id)` still succeeds
while the node is alive. -/
theorem kes_c8_phantom_drop {α : Type} (m : PhantomManager α)
    (mB : WVPhantomManager α) (nid : Nat) (node : α) :
    (m._records.lookup nid = some (some node) →
      (m.drop nid).1 = .ok node
      ∧ (((m.drop nid).2).get nid).1
          = .error (.runtimeError "there is no node with id"))
    ∧ (mB._nodes.lookup nid = some node →
      mB.drop nid = (.ok node, mB)) := by
  constructor
  · intro h
    have hget : m.get nid = (.ok node, m) := by
      rw [PhantomManager.get, h]
    have hdrop : m.drop nid
        = (.ok node,
           { m with _records := m._records.filter (fun kv => kv.1 != nid) }) := by
      rw [PhantomManager.drop, hget]
    rw [hdrop]
    refine ⟨rfl, ?_⟩
    rw [PhantomManager.get]
    rw [lookup_filter_ne]
  · intro h
    rw [WVPhantomManager.drop, WVPhantomManager.get, h]

/-- C8 counterexample: in the builtin registry, after `new` issues id 0 for a
live node, `drop(0)` returns the node and leaves the registry unchanged, and
the immediately following `get(0)` still succeeds — it does not fail with
`RuntimeError` as the claim requires. -/
theorem kes_c8_counterexample :
    ((WVPhantomManager.init Nat).new 5).1 = 0
    ∧ wvB.drop 0 = (.ok 5, wvB)
    ∧ wvB.get 0 = .ok 5 :=
  ⟨rfl, rfl, rfl⟩

/-- C8 witness: in the core registry, `get` after `drop` of a live id fails
with `RuntimeError`. -/
theorem kes_c8_witness :
    (((phC.drop 0).2).get 0).1
      = .error (.runtimeError "there is no node with id") :=
  ((kes_c8_phantom_drop phC (WVPhantomManager.init Nat) 0 7).1 rfl).2

end Karuha
